import Mathlib

/-!
Shallow embedding of `src/prefect/agent.py` (class `OrionAgent`) from the
prefect-1.0 repository, together with theorems settling the frozen claims
about the agent loop, the work-queue cache, the submission coordinator,
the infrastructure-override application and the shutdown lifecycle.

Python exceptions are modelled with `Except Exc`; awaited client calls are
modelled as oracle inputs describing what the server would answer; the
observable effects of a coordinator (state proposals, infrastructure
dispatch, removal from the in-flight set) are recorded in an action log.
-/

/-- Run identifiers (Python `uuid.UUID`) are modelled as naturals. -/
abbrev UUID := Nat

/-- The state types relevant to the agent (`prefect.orion.schemas.states`). -/
inductive StateType where
  | scheduled
  | pending
  | running
  | completed
  | failed
  | cancelled
deriving DecidableEq, Repr

/-- `State.is_pending()`: true exactly for `PENDING`. -/
def StateType.is_pending : StateType → Bool
  | .pending => true
  | _ => false

/-- The Python exceptions that can cross the boundaries the agent handles:
`Abort` and `ObjectNotFound` from `prefect.exceptions`, `KeyError` from
dict indexing, `AttributeError` from attribute access on `None`, and a
catch-all for any other `Exception`. -/
inductive Exc where
  | abort (msg : String)
  | objectNotFound
  | keyError (key : String)
  | attributeError (attr : String)
  | other (msg : String)
deriving DecidableEq, Repr

/-- `DataDocument.encode(encoding, payload)`: an opaque serialized blob
tagged with its encoding (the agent uses `"cloudpickle"`). -/
structure DataDoc where
  encoding : String
  payload : Exc
deriving DecidableEq, Repr

/-- The part of a proposed state the agent constructs: type, optional
message and optional serialized data. -/
structure ProposedState where
  type : StateType
  message : Option String
  data : Option DataDoc
deriving DecidableEq, Repr

/-- `Pending()` as proposed by `_propose_pending_state`. -/
def pendingState : ProposedState := ⟨.pending, none, none⟩

/-- The `Failed` state that `_propose_failed_state` builds:
`Failed(message="Submission failed.", data=DataDocument.encode("cloudpickle", exc))`. -/
def failedState (exc : Exc) : ProposedState :=
  ⟨.failed, some "Submission failed.", some ⟨"cloudpickle", exc⟩⟩

/-- A flow run as the agent sees it. -/
structure FlowRun where
  id : UUID
  deployment_id : UUID
deriving DecidableEq, Repr

/-- A work queue as the agent sees it. -/
structure WorkQueue where
  name : String
  id : UUID
  is_paused : Bool
deriving DecidableEq, Repr

/-- An infrastructure block; the coordinator only passes it along. -/
inductive Infrastructure where
  | process
  | kubernetesJob
deriving DecidableEq, Repr

/-- Observable effects of one coordinator (`submit_run`) execution. -/
inductive AgentAction where
  /-- `client.propose_state(st, flow_run_id=runId)` was called. -/
  | proposeState (runId : UUID) (st : ProposedState)
  /-- `get_infrastructure(flow_run)` was called. -/
  | resolveInfra (runId : UUID)
  /-- `task_group.start(submit_flow_run, flow_run, infrastructure)` was called. -/
  | dispatch (runId : UUID)
  /-- `submitting_flow_run_ids.remove(flow_run.id)` was executed. -/
  | removeId (runId : UUID)
deriving DecidableEq, Repr

/-- Oracle for the awaited calls a single `submit_run` may perform: what
each call would return (`.ok`) or raise (`.error`) if it were reached. -/
structure SubmitEnv where
  /-- Result of `client.propose_state(Pending(), flow_run_id=...)`. -/
  proposePending : Except Exc StateType
  /-- Result of `get_infrastructure(flow_run)`. -/
  getInfra : Except Exc Infrastructure
  /-- Result of `task_group.start(submit_flow_run, flow_run, infrastructure)`. -/
  dispatch : Except Exc Unit
  /-- Result of `client.propose_state(Failed(...), flow_run_id=...)`. -/
  proposeFailed : Except Exc StateType
deriving Repr

/-- `OrionAgent._propose_pending_state` (agent.py:210-234): returns `False`
on `Abort`, on any other exception, and on a non-pending reply; returns
`True` only when the server answered with a pending state. -/
def propose_pending_state (resp : Except Exc StateType) : Bool :=
  match resp with
  | .error (.abort _) => false
  | .error _ => false
  | .ok state => state.is_pending

/-- `OrionAgent._propose_failed_state` (agent.py:236-254): proposes the
`Failed` state; an `Abort` reply is passed over silently, any other
exception is logged; the method never raises. Returns (outcome, whether
the error branch logged). -/
def propose_failed_state (resp : Except Exc StateType) : Except Exc Unit × Bool :=
  match resp with
  | .ok _ => (.ok (), false)
  | .error (.abort _) => (.ok (), false)
  | .error _ => (.ok (), true)

/-- `OrionAgent.submit_run` (agent.py:187-208). Returns the coroutine's
outcome (`.error e` when an exception escapes `submit_run` itself) and the
ordered log of observable actions. Mirrors the source: the claim, then —
only when ready — `get_infrastructure` OUTSIDE the try block, then the
dispatch guarded by `try/except` with `_propose_failed_state` in the
handler, then the unconditional-looking `remove` on the function's last
line. -/
def submit_run (fr : FlowRun) (env : SubmitEnv) :
    Except Exc Unit × List AgentAction :=
  let claimLog := [AgentAction.proposeState fr.id pendingState]
  if propose_pending_state env.proposePending then
    match env.getInfra with
    | .error e =>
        -- exception raised while resolving infrastructure: nothing catches
        -- it inside submit_run, so it escapes before the remove line runs
        (.error e, claimLog ++ [.resolveInfra fr.id])
    | .ok _infra =>
        match env.dispatch with
        | .ok _ =>
            (.ok (), claimLog ++ [.resolveInfra fr.id, .dispatch fr.id,
                                  .removeId fr.id])
        | .error exc =>
            -- `except Exception`: log, then _propose_failed_state, then
            -- fall through to the remove line; were the failure report to
            -- raise, the remove line would not be reached
            match propose_failed_state env.proposeFailed with
            | (.ok _, _) =>
                (.ok (), claimLog ++ [.resolveInfra fr.id, .dispatch fr.id,
                                      .proposeState fr.id (failedState exc),
                                      .removeId fr.id])
            | (.error e, _) =>
                (.error e, claimLog ++ [.resolveInfra fr.id, .dispatch fr.id,
                                        .proposeState fr.id (failedState exc)])
  else
    (.ok (), claimLog ++ [.removeId fr.id])

/-! ## Infrastructure override application (`get_infrastructure`, agent.py:154-185)

The block document's `data` entry is a nested Python dict; overrides are
dot-delimited paths. `data = data[field]` on the intermediate segments
raises `KeyError` on a missing key; `data[last] = value` on the final
segment inserts the key when absent. -/

/-- A JSON-like value standing for the nested `data` mapping of a block
document. Objects keep their fields as an ordered association list, as a
Python dict does. -/
inductive JsonVal where
  | str (s : String)
  | num (n : Int)
  | obj (fields : List (String × JsonVal))

/-- Dict lookup: first binding of the key, if any. -/
def assocGet (fields : List (String × JsonVal)) (key : String) : Option JsonVal :=
  match fields with
  | [] => none
  | (k, v) :: rest => if k = key then some v else assocGet rest key

/-- Dict assignment `d[key] = v`: replace the binding in place when the key
exists, append it otherwise. -/
def assocSet (fields : List (String × JsonVal)) (key : String) (v : JsonVal) :
    List (String × JsonVal) :=
  match fields with
  | [] => [(key, v)]
  | (k, w) :: rest =>
      if k = key then (k, v) :: rest else (k, w) :: assocSet rest key v

/-- Read-only descent `data[s1][s2]...`: `none` when a segment is missing
or a non-object is indexed. Used only to state theorems. -/
def getPath (data : JsonVal) (segs : List String) : Option JsonVal :=
  match segs with
  | [] => some data
  | s :: rest =>
      match data with
      | .obj fields =>
          match assocGet fields s with
          | some sub => getPath sub rest
          | none => none
      | _ => none

/-- The override-application body of `get_infrastructure` for one
`(override, value)` pair, with `inter = nested_fields[:-1]` and
`last = nested_fields[-1]`:
`data = infra_dict; for field in nested_fields[:-1]: data = data[field]`
followed by `data[nested_fields[-1]] = value`. A missing intermediate
segment raises `KeyError(field)`; indexing a non-dict raises `TypeError`
(modelled as `.other "TypeError"`). The final assignment inserts the key
when it is absent. -/
def applyOverride (data : JsonVal) (inter : List String) (last : String)
    (v : JsonVal) : Except Exc JsonVal :=
  match inter with
  | [] =>
      match data with
      | .obj fields => .ok (.obj (assocSet fields last v))
      | _ => .error (.other "TypeError")
  | field :: rest =>
      match data with
      | .obj fields =>
          match assocGet fields field with
          | none => .error (.keyError field)
          | some sub =>
              match applyOverride sub rest last v with
              | .error e => .error e
              | .ok sub2 => .ok (.obj (assocSet fields field sub2))
      | _ => .error (.other "TypeError")

/-- One override pair as `get_infrastructure` sees it:
`nested_fields = override.split(".")` — always at least one piece — then
descend through `nested_fields[:-1]` and assign at `nested_fields[-1]`. -/
def applyOverridePath (data : JsonVal) (path : String) (v : JsonVal) :
    Except Exc JsonVal :=
  match path.splitOn "." with
  | [] => .ok data  -- unreachable: split yields at least one piece
  | s :: rest =>
      applyOverride data ((s :: rest).dropLast)
        ((s :: rest).getLast (List.cons_ne_nil s rest)) v

/-- The whole override loop of `get_infrastructure` (agent.py:171-178):
`for override, value in (deployment.infra_overrides or {}).items():`. -/
def applyOverrides (infra_dict : JsonVal)
    (overrides : List (String × JsonVal)) : Except Exc JsonVal :=
  match overrides with
  | [] => .ok infra_dict
  | (path, v) :: rest =>
      match applyOverridePath infra_dict path v with
      | .error e => .error e
      | .ok d => applyOverrides d rest

/-! ## Work-queue cache (`get_work_queues`, agent.py:62-99) -/

/-- The two cache fields of the agent. `expiration` is `none` for the
initial `None`; instants are naturals (seconds). -/
structure QueueCacheState where
  cache : List WorkQueue
  expiration : Option Nat
deriving DecidableEq, Repr

/-- What the server does for one queue name during a refresh:
`read_work_queue_by_name` succeeds, or raises `ObjectNotFound` after which
`create_work_queue` succeeds, or that creation raises too (the race with
another agent; agent.py logs and continues). -/
inductive ReadQueueResult where
  | found (q : WorkQueue)
  | notFoundThenCreated (q : WorkQueue)
  | notFoundCreateFailed
deriving DecidableEq, Repr

/-- The refresh loop of `get_work_queues` (agent.py:80-99): the queues
obtained for the configured names, in order, skipping the ones whose
creation failed. -/
def refreshQueues (names : List String)
    (server : String → ReadQueueResult) : List WorkQueue :=
  names.foldl (fun acc name =>
    match server name with
    | .found q => acc ++ [q]
    | .notFoundThenCreated q => acc ++ [q]
    | .notFoundCreateFailed => acc) []

/-- `OrionAgent.get_work_queues` (agent.py:62-99): when
`(expiration or now) > now` the cached queues are yielded unchanged;
otherwise the cache is cleared, the expiration set to `now + 30`, and each
configured name is fetched, appended to the cache and yielded. Returns
the cache state after the call and the yielded queues. -/
def get_work_queues (now : Nat) (names : List String)
    (server : String → ReadQueueResult) (s : QueueCacheState) :
    QueueCacheState × List WorkQueue :=
  let live := match s.expiration with
    | some e => decide (now < e)
    | none => false  -- `None or now` is `now`, and `now > now` is false
  if live then
    (s, s.cache)
  else
    (⟨refreshQueues names server, some (now + 30)⟩, refreshQueues names server)

/-- The cache-state invariant asserted by claim C5, at a read happening at
instant `now`: either empty with no expiration, or non-empty with
expiration in the future or equal to `now`. -/
def cacheInvariant (now : Nat) (s : QueueCacheState) : Prop :=
  (s.cache = [] ∧ s.expiration = none) ∨
  (s.cache ≠ [] ∧ ∃ e, s.expiration = some e ∧ now ≤ e)

instance (now : Nat) (s : QueueCacheState) : Decidable (cacheInvariant now s) := by
  unfold cacheInvariant
  infer_instance

/-! ## Agent loop tick (`get_and_submit_flow_runs`, agent.py:101-152) -/

/-- One call to `client.get_runs_in_work_queue(id=..., limit=..., scheduled_before=...)`. -/
structure ServerCall where
  queueId : UUID
  limit : Nat
  scheduledBefore : Nat
deriving DecidableEq, Repr

/-- The outcome of one tick: the list the function returns
(`submittable_runs`), the run-fetch calls issued to the server, the ids
for which a coordinator was spawned (`task_group.start_soon(submit_run, ...)`)
in order, and the in-flight set after the tick. -/
structure TickResult where
  submittable_runs : List FlowRun
  calls : List ServerCall
  spawned : List UUID
  submitting : List UUID
deriving DecidableEq, Repr

/-- `before = now + (prefetch_seconds or PREFECT_AGENT_PREFETCH_SECONDS)`:
a supplied value of `0` is falsy in Python and also falls back to the
setting. -/
def effectivePrefetch (prefetch_seconds : Option Nat) (settingDefault : Nat) : Nat :=
  match prefetch_seconds with
  | some n => if n = 0 then settingDefault else n
  | none => settingDefault

/-- The queue loop of the tick (agent.py:118-137): paused queues are
logged and skipped; each other queue gets one
`get_runs_in_work_queue(id, limit=10, scheduled_before=before)` call, its
runs extending `submittable_runs`; `ObjectNotFound` and any other
exception are logged and the loop continues. -/
def fetchStep (before : Nat) (server : UUID → Except Exc (List FlowRun))
    (acc : List FlowRun × List ServerCall) (q : WorkQueue) :
    List FlowRun × List ServerCall :=
  if q.is_paused then
    acc
  else
    let call : ServerCall := ⟨q.id, 10, before⟩
    match server q.id with
    | .ok queue_runs => (acc.1 ++ queue_runs, acc.2 ++ [call])
    | .error _ => (acc.1, acc.2 ++ [call])

def fetchRuns (before : Nat) (server : UUID → Except Exc (List FlowRun))
    (queues : List WorkQueue) : List FlowRun × List ServerCall :=
  queues.foldl (fetchStep before server) ([], [])

/-- One iteration of the dedup-and-spawn loop (agent.py:139-150):
`acc = (spawned so far, submitting_flow_run_ids)`. -/
def spawnStep (acc : List UUID × List UUID) (fr : FlowRun) :
    List UUID × List UUID :=
  if fr.id ∈ acc.2 then acc
  else (acc.1 ++ [fr.id], acc.2 ++ [fr.id])

/-- The dedup-and-spawn loop of the tick, folding over the fetched runs:
returns (spawned ids, in-flight set). -/
def spawnRuns (submitting : List UUID) (runs : List FlowRun) :
    List UUID × List UUID :=
  runs.foldl spawnStep ([], submitting)

/-- `OrionAgent.get_and_submit_flow_runs` (agent.py:101-152), with the
queue iteration already resolved to the list `get_work_queues` yields and
the server's per-queue answer given as an oracle. Raises `RuntimeError`
when the agent is not started; otherwise runs the two loops above and
returns `submittable_runs` — the full fetched list, not the spawned
sublist. -/
def get_and_submit_flow_runs (started : Bool) (now : Nat)
    (prefetch_seconds : Option Nat) (settingDefault : Nat)
    (queues : List WorkQueue) (server : UUID → Except Exc (List FlowRun))
    (submitting : List UUID) : Except Exc TickResult :=
  if !started then
    .error (.other "Agent is not started. Use `async with OrionAgent()...`")
  else
    let before := now + effectivePrefetch prefetch_seconds settingDefault
    let fetch := fetchRuns before server queues
    let spawn := spawnRuns submitting fetch.1
    .ok ⟨fetch.1, fetch.2, spawn.1, spawn.2⟩

/-! ## Lifecycle (`start`/`shutdown`, agent.py:257-278) -/

/-- The mutable fields of `OrionAgent` that `shutdown` touches. The task
group and the client are `none` exactly when the Python attributes are
`None`. -/
structure AgentState where
  started : Bool
  task_group : Option Unit
  client : Option Unit
  submitting_flow_run_ids : List UUID
  work_queue_cache_expiration : Option Nat
  work_queue_cache : List WorkQueue
deriving DecidableEq, Repr

/-- `OrionAgent.shutdown` (agent.py:270-278), statement by statement:
`self.started = False`; `await self.task_group.__aexit__(...)` — an
`AttributeError` on `None`; `await self.client.__aexit__(...)` — likewise;
then the resets. Returns the state as left behind and the exception that
escaped, if any. -/
def shutdown (s : AgentState) : AgentState × Option Exc :=
  let s1 := { s with started := false }
  match s1.task_group with
  | none => (s1, some (.attributeError "__aexit__"))
  | some _ =>
      match s1.client with
      | none => (s1, some (.attributeError "__aexit__"))
      | some _ =>
          ({ started := false, task_group := none, client := none,
             submitting_flow_run_ids := [],
             work_queue_cache_expiration := none,
             work_queue_cache := [] }, none)

/-! ## Interleaved tick/coordinator system (claim C6)

A small-step system over the agent lifetime: ticks of
`get_and_submit_flow_runs` (agent.py:139-150) interleaved with the
suspension points of the spawned coordinators (`submit_run`). The server
side of the claim protocol is part of the model: `propose_state(Pending)`
succeeds only for a run still in `Scheduled` on the server, and moves it
out of `Scheduled` for good (only one proposer ever gets the pending
answer — spec section 5's at-most-one claim semantics). The environment
chooses the trace: which runs each tick returns, whether a claim is
granted, whether infrastructure resolution or dispatch fails. -/

/-- Where a live coordinator stands between its suspension points. -/
inductive CoordPhase where
  /-- spawned, has not yet run `_propose_pending_state` -/
  | toPropose
  /-- the claim returned `True`; `get_infrastructure` / dispatch come next -/
  | readyToDispatch
  /-- nothing left but the final `submitting_flow_run_ids.remove` -/
  | toRemove
deriving DecidableEq, Repr

/-- The global state. There is at most one live coordinator per run id —
a tick spawns one only when the id is absent from `submitting`, and the id
stays in `submitting` for the coordinator's entire life — so the live
coordinators form a partial map from run id to phase. `claimed` is the
server side: the runs no longer in `Scheduled` there. -/
structure SysState where
  submitting : List UUID
  coords : UUID → Option CoordPhase
  claimed : List UUID
  dispatchLog : List UUID
  spawnLog : List UUID

/-- A fresh agent against a server where every run is still scheduled. -/
def initSys : SysState := ⟨[], fun _ => none, [], [], []⟩

/-- An environment-chosen step of the system. -/
inductive Event where
  /-- one tick of `get_and_submit_flow_runs`; `runs` is what the server
  returned across the queues -/
  | tick (runs : List UUID)
  /-- the coordinator for `rid` performs `_propose_pending_state`;
  `grant` is whether the server is willing — effective only if the run is
  still scheduled -/
  | propose (rid : UUID) (grant : Bool)
  /-- the coordinator for `rid` hands the run to the infrastructure
  (covers both a clean dispatch and one whose exception is caught and
  reported via `_propose_failed_state`) -/
  | dispatch (rid : UUID)
  /-- `get_infrastructure` raises: the coordinator dies before reaching
  the remove line (agent.py:194 sits outside the try block) -/
  | infraFail (rid : UUID)
  /-- the coordinator for `rid` runs its final
  `submitting_flow_run_ids.remove` and finishes -/
  | remove (rid : UUID)
deriving DecidableEq, Repr

/-- Point update of the coordinator map. -/
def setCoord (coords : UUID → Option CoordPhase) (rid : UUID)
    (ph : Option CoordPhase) : UUID → Option CoordPhase :=
  fun x => if x = rid then ph else coords x

/-- The dedup-and-spawn loop of one tick (agent.py:139-150): each returned
run already in `submitting` is skipped; otherwise its id is added and a
coordinator spawned. -/
def tickStep (s : SysState) (runs : List UUID) : SysState :=
  runs.foldl (fun s rid =>
    if rid ∈ s.submitting then s
    else { s with submitting := s.submitting ++ [rid],
                  coords := setCoord s.coords rid (some .toPropose),
                  spawnLog := s.spawnLog ++ [rid] }) s

/-- One step of the system. An event addressing a coordinator that is not
at the required phase is a no-op (that interleaving does not exist). -/
def step (s : SysState) (e : Event) : SysState :=
  match e with
  | .tick runs => tickStep s runs
  | .propose rid grant =>
      match s.coords rid with
      | some .toPropose =>
          if grant ∧ rid ∉ s.claimed then
            { s with coords := setCoord s.coords rid (some .readyToDispatch),
                     claimed := s.claimed ++ [rid] }
          else
            -- abort, transport error, or a non-pending answer (the run
            -- is no longer scheduled): ready_to_submit = False
            { s with coords := setCoord s.coords rid (some .toRemove) }
      | _ => s
  | .dispatch rid =>
      match s.coords rid with
      | some .readyToDispatch =>
          { s with coords := setCoord s.coords rid (some .toRemove),
                   dispatchLog := s.dispatchLog ++ [rid] }
      | _ => s
  | .infraFail rid =>
      match s.coords rid with
      | some .readyToDispatch =>
          -- the exception escapes submit_run: the coordinator is gone
          -- but the id is never removed from the in-flight set
          { s with coords := setCoord s.coords rid none }
      | _ => s
  | .remove rid =>
      match s.coords rid with
      | some .toRemove =>
          { s with coords := setCoord s.coords rid none,
                   submitting := s.submitting.erase rid }
      | _ => s

/-- Run a trace of events from a state. -/
def runTrace (s : SysState) (tr : List Event) : SysState :=
  tr.foldl step s

/-- 1 when the coordinator phase is `readyToDispatch`, else 0. -/
def readyInd : Option CoordPhase → Nat
  | some .readyToDispatch => 1
  | _ => 0

/-- 1 when the id is in the list, else 0. -/
def memInd (rid : UUID) (l : List UUID) : Nat :=
  if rid ∈ l then 1 else 0

/-- The inductive invariant behind at-most-once dispatch: for each run,
the dispatches already performed plus the coordinators currently ready to
dispatch never exceed the one claim the server can have granted. -/
def dispatchBound (s : SysState) (rid : UUID) : Prop :=
  s.dispatchLog.count rid + readyInd (s.coords rid) ≤ memInd rid s.claimed

/-! ## Concrete inputs used by witnesses and counterexamples -/

/-- A demonstration flow run. -/
def frDemo : FlowRun := ⟨7, 3⟩

/-- Environment where the claim succeeds and `get_infrastructure` raises. -/
def envInfraBoom : SubmitEnv :=
  ⟨.ok .pending, .error (.other "boom"), .ok (), .ok .pending⟩

/-- Environment where the claim succeeds and `get_infrastructure` raises a
`KeyError` (a missing override segment, say). -/
def envInfraKeyErr : SubmitEnv :=
  ⟨.ok .pending, .error (.keyError "cpu"), .ok (), .ok .pending⟩

/-- Environment where the server aborts the claim. -/
def envAborted : SubmitEnv :=
  ⟨.error (.abort "halt"), .ok .process, .ok (), .ok .pending⟩

/-- Environment where the dispatch raises and the failure report is then
answered with an `Abort`. -/
def envDispatchBoom : SubmitEnv :=
  ⟨.ok .pending, .ok .process, .error (.other "submit exploded"),
   .error (.abort "late")⟩

/-- Did the log record a proposal of a `FAILED`-typed state for `runId`? -/
def proposedFailed (runId : UUID) (log : List AgentAction) : Bool :=
  log.any fun a =>
    match a with
    | .proposeState rid st => rid == runId && st.type == .failed
    | _ => false

/-! ## Claims C1-C4: the submission coordinator -/

/-- C1 (counterexample): with the claim granted and `get_infrastructure`
raising, `submit_run` lets the exception escape and never reaches the
`submitting_flow_run_ids.remove` line. -/
theorem c1_counterexample :
    AgentAction.removeId frDemo.id ∉ (submit_run frDemo envInfraBoom).2 ∧
    (submit_run frDemo envInfraBoom).1 = .error (.other "boom") :=
  ⟨by decide, rfl⟩

/-- C1 (amended): every completion of the coordinator removes the run id
from the in-flight set — successful submission, refused claim, and the
dispatch-exception path — except the path where `get_infrastructure`
raises: there the exception escapes `submit_run` before the remove line,
and the id is not removed. -/
theorem c1_remove_on_completion_paths (fr : FlowRun) (env : SubmitEnv) :
    ((submit_run fr env).1 = .ok () ∧
      AgentAction.removeId fr.id ∈ (submit_run fr env).2) ∨
    (propose_pending_state env.proposePending = true ∧
      (∃ e, env.getInfra = .error e ∧ (submit_run fr env).1 = .error e) ∧
      AgentAction.removeId fr.id ∉ (submit_run fr env).2) := by
  by_cases hp : propose_pending_state env.proposePending = true
  · cases hinfra : env.getInfra with
    | error e =>
        exact Or.inr ⟨hp, ⟨e, rfl, by simp [submit_run, hp, hinfra]⟩,
          by simp [submit_run, hp, hinfra]⟩
    | ok infra =>
        cases hdisp : env.dispatch with
        | ok u => exact Or.inl (by simp [submit_run, hp, hinfra, hdisp])
        | error exc =>
            cases hpf : env.proposeFailed with
            | ok st =>
                exact Or.inl (by
                  simp [submit_run, hp, hinfra, hdisp, hpf, propose_failed_state])
            | error e =>
                cases e <;>
                  exact Or.inl (by
                    simp [submit_run, hp, hinfra, hdisp, hpf, propose_failed_state])
  · exact Or.inl (by simp [submit_run, hp])

/-- C2 (counterexample): an exception raised while resolving the
infrastructure is not handled as a submit failure: it escapes the
coordinator and no `Failed` state is proposed. -/
theorem c2_counterexample :
    (submit_run frDemo envInfraBoom).1 = .error (.other "boom") ∧
    proposedFailed frDemo.id (submit_run frDemo envInfraBoom).2 = false :=
  ⟨rfl, rfl⟩

/-- C2 (amended): if `get_infrastructure` raises for a claimed run, the
exception escapes the coordinator unhandled (agent.py:194 is outside the
try block) and no `Failed` state is proposed for the run. -/
theorem c2_infra_error_escapes (fr : FlowRun) (env : SubmitEnv) (e : Exc)
    (hready : propose_pending_state env.proposePending = true)
    (hinfra : env.getInfra = .error e) :
    (submit_run fr env).1 = .error e ∧
    proposedFailed fr.id (submit_run fr env).2 = false := by
  simp [submit_run, hready, hinfra, proposedFailed, pendingState]

/-- C2 (witness): the amended statement at a concrete claimed run whose
infrastructure resolution raises a `KeyError`. -/
theorem c2_witness :
    (submit_run frDemo envInfraKeyErr).1 = .error (.keyError "cpu") ∧
    proposedFailed frDemo.id (submit_run frDemo envInfraKeyErr).2 = false :=
  c2_infra_error_escapes frDemo envInfraKeyErr (.keyError "cpu") rfl rfl

/-- C3: the run reaches infrastructure resolution or dispatch only when
`propose_state(Pending)` answered with a pending state without raising;
`_propose_pending_state` returns `False` on every exception (`Abort`
included) and on a non-pending answer, and in that case the coordinator
performs nothing but the claim call and the removal — no infrastructure
submission and no `Failed` proposal. -/
theorem c3_claim_gates_submission (fr : FlowRun) (env : SubmitEnv) :
    ((AgentAction.resolveInfra fr.id ∈ (submit_run fr env).2 ∨
      AgentAction.dispatch fr.id ∈ (submit_run fr env).2) →
      ∃ st, env.proposePending = .ok st ∧ st.is_pending = true) ∧
    (propose_pending_state env.proposePending = false →
      (submit_run fr env).1 = .ok () ∧
      (submit_run fr env).2 =
        [.proposeState fr.id pendingState, .removeId fr.id]) ∧
    (∀ e, propose_pending_state (.error e) = false) ∧
    (∀ st, propose_pending_state (.ok st) = st.is_pending) := by
  refine ⟨?_, ?_, ?_, ?_⟩
  · intro h
    by_cases hp : propose_pending_state env.proposePending = true
    · cases henv : env.proposePending with
      | error e =>
          rw [henv] at hp
          cases e <;> simp [propose_pending_state] at hp
      | ok st =>
          refine ⟨st, rfl, ?_⟩
          rw [henv] at hp
          simpa [propose_pending_state] using hp
    · rw [Bool.not_eq_true] at hp
      simp [submit_run, hp] at h
  · intro hp
    simp [submit_run, hp]
  · intro e
    cases e <;> rfl
  · intro st
    rfl

/-- C3 (witness): the gate at a concrete aborted claim. -/
theorem c3_witness :
    (submit_run frDemo envAborted).1 = .ok () ∧
    (submit_run frDemo envAborted).2 =
      [.proposeState frDemo.id pendingState, .removeId frDemo.id] :=
  (c3_claim_gates_submission frDemo envAborted).2.1 rfl

/-- C4: when the dispatch raises, the coordinator proposes a `Failed`
state whose message is exactly "Submission failed." with the
cloudpickle-serialized exception as payload, and still completes
normally; `_propose_failed_state` itself never raises — an `Abort` reply
is silently absorbed and any other reply error is logged and absorbed. -/
theorem c4_submit_failure_reporting (fr : FlowRun) (env : SubmitEnv)
    (infra : Infrastructure) (exc : Exc)
    (hready : propose_pending_state env.proposePending = true)
    (hinfra : env.getInfra = .ok infra)
    (hdisp : env.dispatch = .error exc) :
    (submit_run fr env).2 =
      [.proposeState fr.id pendingState, .resolveInfra fr.id,
       .dispatch fr.id, .proposeState fr.id (failedState exc),
       .removeId fr.id] ∧
    (submit_run fr env).1 = .ok () ∧
    (failedState exc).message = some "Submission failed." ∧
    (failedState exc).data = some ⟨"cloudpickle", exc⟩ ∧
    (∀ resp, (propose_failed_state resp).1 = .ok ()) ∧
    (∀ m, propose_failed_state (.error (.abort m)) = (.ok (), false)) ∧
    (∀ e, (∀ m, e ≠ .abort m) → propose_failed_state (.error e) = (.ok (), true)) := by
  have htotal : ∀ resp : Except Exc StateType,
      (propose_failed_state resp).1 = .ok () := by
    intro resp
    cases resp with
    | ok st => rfl
    | error e => cases e <;> rfl
  refine ⟨?_, ?_, rfl, rfl, htotal, fun m => rfl, ?_⟩
  · cases hpf : env.proposeFailed with
    | ok st => simp [submit_run, hready, hinfra, hdisp, hpf, propose_failed_state]
    | error e =>
        cases e <;>
          simp [submit_run, hready, hinfra, hdisp, hpf, propose_failed_state]
  · cases hpf : env.proposeFailed with
    | ok st => simp [submit_run, hready, hinfra, hdisp, hpf, propose_failed_state]
    | error e =>
        cases e <;>
          simp [submit_run, hready, hinfra, hdisp, hpf, propose_failed_state]
  · intro e he
    cases e with
    | abort m => exact absurd rfl (he m)
    | objectNotFound => rfl
    | keyError k => rfl
    | attributeError a => rfl
    | other m => rfl

/-- C4 (witness): a concrete claimed run whose dispatch raises and whose
failure report is answered with an `Abort`. -/
theorem c4_witness :
    (submit_run frDemo envDispatchBoom).2 =
      [.proposeState frDemo.id pendingState, .resolveInfra frDemo.id,
       .dispatch frDemo.id,
       .proposeState frDemo.id (failedState (.other "submit exploded")),
       .removeId frDemo.id] ∧
    (submit_run frDemo envDispatchBoom).1 = .ok () :=
  let h := c4_submit_failure_reporting frDemo envDispatchBoom .process
    (.other "submit exploded") rfl rfl rfl
  ⟨h.1, h.2.1⟩

/-! ## Claim C5: the work-queue cache invariant -/

/-- A server oracle for cache demonstrations (never consulted when the
agent has no configured queue names). -/
def noQueueServer : String → ReadQueueResult := fun _ => .notFoundCreateFailed

/-- C5 (counterexample): an agent with no configured work queues refreshes
at instant 0, leaving an empty cache with the expiration set to 30; the
read at instant 1 observes exactly the state the claim rules out — an
empty cache with an expiration set — and serves from it unchanged. -/
theorem c5_counterexample :
    ¬ cacheInvariant 1 (get_work_queues 0 [] noQueueServer ⟨[], none⟩).1 ∧
    get_work_queues 1 [] noQueueServer
        (get_work_queues 0 [] noQueueServer ⟨[], none⟩).1 =
      ((get_work_queues 0 [] noQueueServer ⟨[], none⟩).1, []) := by
  refine ⟨?_, rfl⟩
  decide

/-- C5 (amended): at each read, either the expiration is strictly in the
future and the call serves exactly the cached list leaving the state
unchanged, or (no expiration set, or expiration at or before now) the
call refreshes: the new expiration is `now + 30` and the new cache equals
the yielded list. The claimed two-case invariant does not hold: an empty
cache with an expiration set is observable after a refresh that appended
nothing, and a non-empty cache with a past expiration is observable at
the entry of the read that then refreshes it. -/
theorem c5_cache_read_dichotomy (now : Nat) (names : List String)
    (server : String → ReadQueueResult) (s : QueueCacheState) :
    ((∃ e, s.expiration = some e ∧ now < e) ∧
      get_work_queues now names server s = (s, s.cache)) ∨
    ((s.expiration = none ∨ ∃ e, s.expiration = some e ∧ e ≤ now) ∧
      get_work_queues now names server s =
        (⟨refreshQueues names server, some (now + 30)⟩,
         refreshQueues names server)) := by
  cases hexp : s.expiration with
  | none =>
      exact Or.inr ⟨Or.inl rfl, by simp [get_work_queues, hexp]⟩
  | some e =>
      by_cases h : now < e
      · exact Or.inl ⟨⟨e, rfl, h⟩, by simp [get_work_queues, hexp, h]⟩
      · exact Or.inr ⟨Or.inr ⟨e, rfl, Nat.le_of_not_lt h⟩,
          by simp [get_work_queues, hexp, h]⟩

/-! ## Claims C7 and C10: one tick of the agent loop -/

/-- The fetch loop issues exactly one call per non-paused queue, in queue
order, each with `limit = 10` and the tick's `scheduled_before` bound;
paused queues get no call. -/
theorem fetchRuns_calls (before : Nat)
    (server : UUID → Except Exc (List FlowRun)) (queues : List WorkQueue)
    (acc : List FlowRun × List ServerCall) :
    (queues.foldl (fetchStep before server) acc).2 =
      acc.2 ++ (queues.filter (fun q => !q.is_paused)).map
        (fun q => ⟨q.id, 10, before⟩) := by
  induction queues generalizing acc with
  | nil => simp
  | cons q rest ih =>
      by_cases hq : q.is_paused
      · simp [fetchStep, hq, ih]
      · cases hsrv : server q.id with
        | ok rs => simp [fetchStep, hq, hsrv, ih]
        | error e => simp [fetchStep, hq, hsrv, ih]

/-- An id already in the in-flight component of the accumulator is never
spawned by the dedup loop, and stays in the in-flight component. -/
theorem spawnRuns_skips_inflight (runs : List FlowRun)
    (acc : List UUID × List UUID) (i : UUID)
    (hin : i ∈ acc.2) (hout : i ∉ acc.1) :
    i ∉ (runs.foldl spawnStep acc).1 ∧ i ∈ (runs.foldl spawnStep acc).2 := by
  induction runs generalizing acc with
  | nil => exact ⟨hout, hin⟩
  | cons fr rest ih =>
      by_cases hfr : fr.id ∈ acc.2
      · simpa [spawnStep, hfr] using ih acc hin hout
      · have hne : i ≠ fr.id := fun h => hfr (h ▸ hin)
        refine ih _ ?_ ?_
        · simp [spawnStep, hfr, hin]
        · simp [spawnStep, hfr, hout, hne]

/-- C7: in a tick of a started agent, every paused queue is skipped
without a `get_runs_in_work_queue` call, and the calls issued are exactly
one per non-paused queue, each asking for at most 10 runs scheduled at or
before `now` plus the prefetch window. -/
theorem c7_paused_skipped_limit_ten (now : Nat)
    (prefetch_seconds : Option Nat) (settingDefault : Nat)
    (queues : List WorkQueue) (server : UUID → Except Exc (List FlowRun))
    (submitting : List UUID) :
    ∃ r, get_and_submit_flow_runs true now prefetch_seconds settingDefault
        queues server submitting = .ok r ∧
      r.calls = (queues.filter (fun q => !q.is_paused)).map
        (fun q => ⟨q.id, 10,
          now + effectivePrefetch prefetch_seconds settingDefault⟩) ∧
      ∀ q ∈ queues, q.is_paused = true →
        ∀ c ∈ r.calls, c.queueId = q.id →
          ∃ q2 ∈ queues, q2.is_paused = false ∧ q2.id = q.id := by
  refine ⟨_, rfl, ?_, ?_⟩
  · simpa [get_and_submit_flow_runs, fetchRuns] using
      fetchRuns_calls (now + effectivePrefetch prefetch_seconds settingDefault)
        server queues ([], [])
  · intro q hq hpaused c hc hcq
    have hfold := fetchRuns_calls
      (now + effectivePrefetch prefetch_seconds settingDefault)
      server queues ([], [])
    have hc2 : c ∈ (queues.filter (fun q => !q.is_paused)).map
        (fun q => (⟨q.id, 10,
          now + effectivePrefetch prefetch_seconds settingDefault⟩ : ServerCall)) := by
      simpa [get_and_submit_flow_runs, fetchRuns, hfold] using hc
    rcases List.mem_map.mp hc2 with ⟨q2, hq2, hq2c⟩
    rcases List.mem_filter.mp hq2 with ⟨hq2mem, hq2np⟩
    refine ⟨q2, hq2mem, by simpa using hq2np, ?_⟩
    have : c.queueId = q2.id := by rw [← hq2c]
    rw [← this, hcq]

/-- C7 (witness): a concrete tick with one paused and one live queue. -/
theorem c7_witness :
    ∃ r, get_and_submit_flow_runs true 100 none 10
        [⟨"q1", 1, true⟩, ⟨"q2", 2, false⟩]
        (fun _ => .ok [frDemo]) [] = .ok r ∧
      r.calls = [⟨2, 10, 110⟩] := by
  rcases c7_paused_skipped_limit_ten 100 none 10
      [⟨"q1", 1, true⟩, ⟨"q2", 2, false⟩] (fun _ => .ok [frDemo]) [] with
    ⟨r, hr, hcalls, _⟩
  exact ⟨r, hr, by rw [hcalls]; rfl⟩

/-- C10: the list returned by a tick is the full fetched list — identical
for any in-flight set — and a fetched run whose id is already in
`submitting_flow_run_ids` is skipped by the dedup loop (no coordinator
spawned) yet still appears in the returned list. -/
theorem c10_returns_include_deduped (now : Nat)
    (prefetch_seconds : Option Nat) (settingDefault : Nat)
    (queues : List WorkQueue) (server : UUID → Except Exc (List FlowRun))
    (submitting : List UUID) :
    ∃ r, get_and_submit_flow_runs true now prefetch_seconds settingDefault
        queues server submitting = .ok r ∧
      r.submittable_runs =
        (fetchRuns (now + effectivePrefetch prefetch_seconds settingDefault)
          server queues).1 ∧
      (∀ submitting2 : List UUID,
        ∃ r2, get_and_submit_flow_runs true now prefetch_seconds
            settingDefault queues server submitting2 = .ok r2 ∧
          r2.submittable_runs = r.submittable_runs) ∧
      ∀ fr ∈ r.submittable_runs, fr.id ∈ submitting →
        fr.id ∉ r.spawned := by
  refine ⟨_, rfl, rfl, fun submitting2 => ⟨_, rfl, rfl⟩, ?_⟩
  intro fr _ hin
  exact (spawnRuns_skips_inflight _ ([], submitting) fr.id hin
    (by simp)).1

/-- C10 (witness): a run already in flight is returned but not spawned. -/
theorem c10_witness :
    ∃ r, get_and_submit_flow_runs true 100 none 10 [⟨"q2", 2, false⟩]
        (fun _ => .ok [frDemo]) [frDemo.id] = .ok r ∧
      r.submittable_runs = [frDemo] ∧ frDemo.id ∉ r.spawned := by
  rcases c10_returns_include_deduped 100 none 10 [⟨"q2", 2, false⟩]
      (fun _ => .ok [frDemo]) [frDemo.id] with ⟨r, hr, hruns, _, hskip⟩
  refine ⟨r, hr, ?_, ?_⟩
  · rw [hruns]; rfl
  · exact hskip frDemo (by rw [hruns]; exact List.mem_singleton.mpr rfl)
      (List.mem_singleton.mpr rfl)

/-! ## Claim C8: shutdown -/

/-- The fully reset agent state `shutdown` leaves behind on success. -/
def resetAgent : AgentState := ⟨false, none, none, [], none, []⟩

/-- A started agent with some in-flight state. -/
def startedAgent : AgentState :=
  ⟨true, some (), some (), [5], some 42, [⟨"q1", 1, false⟩]⟩

/-- C8 (counterexample): after a completed `shutdown`, invoking
`shutdown` again does not succeed — `self.task_group` is `None`, so
`self.task_group.__aexit__(*exc_info)` raises `AttributeError`. -/
theorem c8_counterexample :
    (shutdown (shutdown startedAgent).1).2 =
      some (.attributeError "__aexit__") := by
  rfl

/-- C8 (amended): `shutdown` on an agent whose task group and client are
live resets the whole state (clears `submitting_flow_run_ids`, the cache
and its expiration, drops the client and task group); a second `shutdown`
is NOT idempotent in the claimed sense: it leaves the state unchanged but
raises an `AttributeError` instead of succeeding. -/
theorem c8_shutdown_resets_second_raises (s : AgentState)
    (htg : s.task_group = some ()) (hcl : s.client = some ()) :
    shutdown s = (resetAgent, none) ∧
    (shutdown resetAgent).1 = resetAgent ∧
    (shutdown resetAgent).2 = some (.attributeError "__aexit__") := by
  refine ⟨?_, rfl, rfl⟩
  simp [shutdown, htg, hcl, resetAgent]

/-- C8 (witness): the amended statement at the concrete started agent. -/
theorem c8_witness :
    shutdown startedAgent = (resetAgent, none) ∧
    (shutdown resetAgent).1 = resetAgent ∧
    (shutdown resetAgent).2 = some (.attributeError "__aexit__") :=
  c8_shutdown_resets_second_raises startedAgent rfl rfl

/-! ## Claim C9: override application in `get_infrastructure` -/

/-- After `d[k] = v`, looking up `k` yields `v`. -/
theorem assocGet_assocSet_self (fields : List (String × JsonVal))
    (k : String) (v : JsonVal) :
    assocGet (assocSet fields k v) k = some v := by
  induction fields with
  | nil => simp [assocSet, assocGet]
  | cons kv rest ih =>
      obtain ⟨k1, w⟩ := kv
      by_cases h : k1 = k
      · simp [assocSet, assocGet, h]
      · simp [assocSet, assocGet, h, ih]

/-- A missing segment anywhere along the intermediate descent makes the
override application raise `KeyError` on that segment. -/
theorem applyOverride_missing_intermediate (pre : List String)
    (data : JsonVal) (f : String) (suf : List String) (last : String)
    (v : JsonVal) (fields : List (String × JsonVal))
    (hdesc : getPath data pre = some (.obj fields))
    (hmissing : assocGet fields f = none) :
    applyOverride data (pre ++ f :: suf) last v = .error (.keyError f) := by
  induction pre generalizing data with
  | nil =>
      simp [getPath] at hdesc
      subst hdesc
      simp [applyOverride, hmissing]
  | cons p ps ih =>
      cases data with
      | str s => simp [getPath] at hdesc
      | num n => simp [getPath] at hdesc
      | obj fs =>
          cases hget : assocGet fs p with
          | none => simp [getPath, hget] at hdesc
          | some sub =>
              simp [getPath, hget] at hdesc
              simp [applyOverride, hget, ih sub hdesc]

/-- When the intermediate descent succeeds and the final segment is
absent from the parent mapping, the override application succeeds and
silently creates the key. -/
theorem applyOverride_creates_final (inter : List String) (data : JsonVal)
    (last : String) (v : JsonVal) (parentFields : List (String × JsonVal))
    (hdesc : getPath data inter = some (.obj parentFields))
    (hmissing : assocGet parentFields last = none) :
    ∃ d2, applyOverride data inter last v = .ok d2 ∧
      getPath d2 (inter ++ [last]) = some v := by
  induction inter generalizing data with
  | nil =>
      simp [getPath] at hdesc
      subst hdesc
      exact ⟨.obj (assocSet parentFields last v), by simp [applyOverride],
        by simp [getPath, assocGet_assocSet_self]⟩
  | cons p ps ih =>
      cases data with
      | str s => simp [getPath] at hdesc
      | num n => simp [getPath] at hdesc
      | obj fs =>
          cases hget : assocGet fs p with
          | none => simp [getPath, hget] at hdesc
          | some sub =>
              simp [getPath, hget] at hdesc
              obtain ⟨d2, hd2, hlook⟩ := ih sub hdesc
              exact ⟨.obj (assocSet fs p d2),
                by simp [applyOverride, hget, hd2],
                by simp [getPath, assocGet_assocSet_self, hlook]⟩

/-- C9: in `get_infrastructure`'s override application a missing
intermediate segment raises `KeyError` (the mapping is never silently
extended along the descent) while a missing final segment is silently
created — the assignment introduces the key at the parent mapping and the
written value is found there afterwards; and a single-pair override list
is exactly one split-descend-assign application. -/
theorem c9_override_descent_semantics :
    (∀ (pre : List String) (data : JsonVal) (f : String) (suf : List String)
        (last : String) (v : JsonVal) (fields : List (String × JsonVal)),
      getPath data pre = some (.obj fields) →
      assocGet fields f = none →
      applyOverride data (pre ++ f :: suf) last v = .error (.keyError f)) ∧
    (∀ (inter : List String) (data : JsonVal) (last : String) (v : JsonVal)
        (parentFields : List (String × JsonVal)),
      getPath data inter = some (.obj parentFields) →
      assocGet parentFields last = none →
      ∃ d2, applyOverride data inter last v = .ok d2 ∧
        getPath d2 (inter ++ [last]) = some v) ∧
    (∀ (d : JsonVal) (p : String) (v : JsonVal),
      applyOverrides d [(p, v)] =
        match applyOverridePath d p v with
        | .error e => .error e
        | .ok d2 => .ok d2) :=
  ⟨fun pre data f suf last v fields hdesc hmiss =>
      applyOverride_missing_intermediate pre data f suf last v fields hdesc hmiss,
   fun inter data last v parentFields hdesc hmiss =>
      applyOverride_creates_final inter data last v parentFields hdesc hmiss,
   fun d p v => by
      cases h : applyOverridePath d p v with
      | error e => simp [applyOverrides, h]
      | ok d2 => simp [applyOverrides, h]⟩

/-- A small block-document `data` mapping for the C9 witness:
`{"env": {"X": "1"}, "image": "busybox"}`. -/
def demoInfraDict : JsonVal :=
  .obj [("env", .obj [("X", .str "1")]), ("image", .str "busybox")]

/-- C9 (witness): on the concrete document, descending through the
missing intermediate `"resources"` raises `KeyError("resources")`, while
assigning the absent final key `"Y"` under the existing `"env"` mapping
creates it. -/
theorem c9_witness :
    applyOverride demoInfraDict ["resources", "limits"] "cpu" (.str "2") =
      .error (.keyError "resources") ∧
    ∃ d2, applyOverride demoInfraDict ["env"] "Y" (.str "0") = .ok d2 ∧
      getPath d2 ["env", "Y"] = some (.str "0") :=
  ⟨by
    have h := c9_override_descent_semantics.1 [] demoInfraDict "resources"
      ["limits"] "cpu" (.str "2")
      [("env", .obj [("X", .str "1")]), ("image", .str "busybox")]
      rfl rfl
    simpa using h,
   by
    have h := c9_override_descent_semantics.2.1 ["env"] demoInfraDict "Y"
      (.str "0") [("X", .str "1")] rfl rfl
    simpa using h⟩

/-! ## Claim C6: at-most-once dispatch across the agent lifetime -/


/-- A spawn (the else-branch of the dedup loop) preserves the dispatch
bound: the new coordinator is only at `toPropose`. -/
theorem dispatchBound_spawn (s : SysState) (r rid : UUID)
    (h : dispatchBound s rid) :
    dispatchBound
      { s with submitting := s.submitting ++ [r],
               coords := setCoord s.coords r (some .toPropose),
               spawnLog := s.spawnLog ++ [r] } rid := by
  unfold dispatchBound at h ⊢
  simp only [setCoord]
  by_cases hr : rid = r
  · rw [if_pos hr]
    have : readyInd (some CoordPhase.toPropose) = 0 := rfl
    rw [this]
    exact le_trans (by omega) h
  · rw [if_neg hr]
    exact h

theorem memInd_le_one (rid : UUID) (l : List UUID) : memInd rid l ≤ 1 := by
  unfold memInd
  split <;> omega

theorem memInd_append_self (rid : UUID) (l : List UUID) :
    memInd rid (l ++ [rid]) = 1 := by
  simp [memInd]

theorem memInd_append_ne (rid r : UUID) (l : List UUID) (h : rid ≠ r) :
    memInd rid (l ++ [r]) = memInd rid l := by
  simp [memInd, List.mem_append, List.mem_singleton, h]

/-- A whole tick preserves the dispatch bound. -/
theorem dispatchBound_tickStep (runs : List UUID) (s : SysState) (rid : UUID)
    (h : dispatchBound s rid) : dispatchBound (tickStep s runs) rid := by
  induction runs generalizing s with
  | nil => exact h
  | cons r rest ih =>
      unfold tickStep
      simp only [List.foldl_cons]
      by_cases hmem : r ∈ s.submitting
      · rw [if_pos hmem]
        exact ih s h
      · rw [if_neg hmem]
        exact ih _ (dispatchBound_spawn s r rid h)

/-- Every step of the system preserves the dispatch bound. -/
theorem dispatchBound_step (s : SysState) (e : Event) (rid : UUID)
    (h : dispatchBound s rid) : dispatchBound (step s e) rid := by
  cases e with
  | tick runs =>
      simp only [step]
      exact dispatchBound_tickStep runs s rid h
  | propose r grant =>
      cases hc : s.coords r with
      | none => simpa only [step, hc] using h
      | some ph =>
          cases ph with
          | readyToDispatch => simpa only [step, hc] using h
          | toRemove => simpa only [step, hc] using h
          | toPropose =>
              simp only [step, hc]
              by_cases hg : grant = true ∧ r ∉ s.claimed
              · rw [if_pos hg]
                unfold dispatchBound at h ⊢
                simp only [setCoord]
                by_cases hr : rid = r
                · rw [if_pos hr]
                  subst hr
                  rw [memInd_append_self]
                  have hm : memInd rid s.claimed = 0 := by
                    simp [memInd, hg.2]
                  rw [hm] at h
                  have : readyInd (some CoordPhase.readyToDispatch) = 1 := rfl
                  omega
                · rw [if_neg hr, memInd_append_ne rid r s.claimed hr]
                  exact h
              · rw [if_neg hg]
                unfold dispatchBound at h ⊢
                simp only [setCoord]
                by_cases hr : rid = r
                · rw [if_pos hr]
                  subst hr
                  rw [hc] at h
                  have h1 : readyInd (some CoordPhase.toRemove) = 0 := rfl
                  have h2 : readyInd (some CoordPhase.toPropose) = 0 := rfl
                  rw [h1]
                  rw [h2] at h
                  exact h
                · rw [if_neg hr]
                  exact h
  | dispatch r =>
      cases hc : s.coords r with
      | none => simpa only [step, hc] using h
      | some ph =>
          cases ph with
          | toPropose => simpa only [step, hc] using h
          | toRemove => simpa only [step, hc] using h
          | readyToDispatch =>
              simp only [step, hc]
              unfold dispatchBound at h ⊢
              simp only [setCoord]
              by_cases hr : rid = r
              · rw [if_pos hr]
                subst hr
                rw [hc] at h
                have h1 : readyInd (some CoordPhase.readyToDispatch) = 1 := rfl
                have h2 : readyInd (some CoordPhase.toRemove) = 0 := rfl
                rw [h1] at h
                rw [h2]
                have h3 : (s.dispatchLog ++ [rid]).count rid
                    = s.dispatchLog.count rid + 1 := by
                  simp [List.count_append]
                rw [h3]
                omega
              · rw [if_neg hr]
                have h3 : (s.dispatchLog ++ [r]).count rid
                    = s.dispatchLog.count rid := by
                  simp [List.count_append, List.count_singleton', hr]
                rw [h3]
                exact h
  | infraFail r =>
      cases hc : s.coords r with
      | none => simpa only [step, hc] using h
      | some ph =>
          cases ph with
          | toPropose => simpa only [step, hc] using h
          | toRemove => simpa only [step, hc] using h
          | readyToDispatch =>
              simp only [step, hc]
              unfold dispatchBound at h ⊢
              simp only [setCoord]
              by_cases hr : rid = r
              · rw [if_pos hr]
                have h1 : readyInd none = 0 := rfl
                rw [h1]
                exact le_trans (by omega) h
              · rw [if_neg hr]
                exact h
  | remove r =>
      cases hc : s.coords r with
      | none => simpa only [step, hc] using h
      | some ph =>
          cases ph with
          | toPropose => simpa only [step, hc] using h
          | readyToDispatch => simpa only [step, hc] using h
          | toRemove =>
              simp only [step, hc]
              unfold dispatchBound at h ⊢
              simp only [setCoord]
              by_cases hr : rid = r
              · rw [if_pos hr]
                have h1 : readyInd none = 0 := rfl
                rw [h1]
                exact le_trans (by omega) h
              · rw [if_neg hr]
                exact h

/-- The dispatch bound holds along any trace. -/
theorem dispatchBound_runTrace (tr : List Event) (s : SysState) (rid : UUID)
    (h : dispatchBound s rid) : dispatchBound (runTrace s tr) rid := by
  induction tr generalizing s with
  | nil => exact h
  | cons e rest ih => exact ih (step s e) (dispatchBound_step s e rid h)

/-- Unfolding one element of the tick fold. -/
theorem tickStep_cons (s : SysState) (r : UUID) (rest : List UUID) :
    tickStep s (r :: rest) =
      tickStep (if r ∈ s.submitting then s
        else { s with submitting := s.submitting ++ [r],
                      coords := setCoord s.coords r (some .toPropose),
                      spawnLog := s.spawnLog ++ [r] }) rest := rfl

/-- While an id is in the in-flight set, a tick never spawns a
coordinator for it, leaves its coordinator slot untouched, and keeps it
in-flight. -/
theorem tickStep_skips_inflight (runs : List UUID) (s : SysState) (rid : UUID)
    (h : rid ∈ s.submitting) :
    (tickStep s runs).spawnLog.count rid = s.spawnLog.count rid ∧
    (tickStep s runs).coords rid = s.coords rid ∧
    rid ∈ (tickStep s runs).submitting := by
  induction runs generalizing s with
  | nil => exact ⟨rfl, rfl, h⟩
  | cons r rest ih =>
      rw [tickStep_cons]
      by_cases hmem : r ∈ s.submitting
      · rw [if_pos hmem]
        exact ih s h
      · rw [if_neg hmem]
        have hne : rid ≠ r := fun he => hmem (he ▸ h)
        obtain ⟨ha, hb, hcmem⟩ := ih
          { s with submitting := s.submitting ++ [r],
                   coords := setCoord s.coords r (some .toPropose),
                   spawnLog := s.spawnLog ++ [r] }
          (by simp [h])
        refine ⟨?_, ?_, hcmem⟩
        · rw [ha]
          simp [List.count_append, List.count_singleton', hne]
        · rw [hb]
          simp [setCoord, hne]

/-- C6: over every interleaving of ticks and coordinator steps from a
fresh agent — with the server granting the `Scheduled → Pending`
transition of a run at most once — each run is handed to the
infrastructure at most once in the agent lifetime; a tick that observes a
run id already in `submitting_flow_run_ids` skips it without spawning a
coordinator; and two consecutive ticks both returning the same new run
spawn its coordinator exactly once. -/
theorem c6_at_most_once_dispatch :
    (∀ (tr : List Event) (rid : UUID),
      (runTrace initSys tr).dispatchLog.count rid ≤ 1) ∧
    (∀ (s : SysState) (runs : List UUID) (rid : UUID), rid ∈ s.submitting →
      (tickStep s runs).spawnLog.count rid = s.spawnLog.count rid ∧
      (tickStep s runs).coords rid = s.coords rid) ∧
    (∀ (s : SysState) (rid : UUID), rid ∉ s.submitting →
      (runTrace s [.tick [rid], .tick [rid]]).spawnLog.count rid =
        s.spawnLog.count rid + 1) := by
  refine ⟨?_, ?_, ?_⟩
  · intro tr rid
    have hinit : dispatchBound initSys rid := by
      unfold dispatchBound initSys
      simp [readyInd, memInd]
    have hb := dispatchBound_runTrace tr initSys rid hinit
    unfold dispatchBound at hb
    have hle := memInd_le_one rid (runTrace initSys tr).claimed
    omega
  · intro s runs rid h
    obtain ⟨ha, hb, _⟩ := tickStep_skips_inflight runs s rid h
    exact ⟨ha, hb⟩
  · intro s rid hnot
    show (step (step s (.tick [rid])) (.tick [rid])).spawnLog.count rid = _
    simp only [step]
    have h1 : tickStep s [rid] =
        { s with submitting := s.submitting ++ [rid],
                 coords := setCoord s.coords rid (some .toPropose),
                 spawnLog := s.spawnLog ++ [rid] } := by
      rw [show ([rid] : List UUID) = rid :: [] from rfl, tickStep_cons,
        if_neg hnot]
      rfl
    rw [h1]
    have hmem2 : rid ∈ s.submitting ++ [rid] := by simp
    obtain ⟨ha, _, _⟩ := tickStep_skips_inflight [rid]
      { s with submitting := s.submitting ++ [rid],
               coords := setCoord s.coords rid (some .toPropose),
               spawnLog := s.spawnLog ++ [rid] }
      rid hmem2
    rw [ha]
    show (s.spawnLog ++ [rid]).count rid = s.spawnLog.count rid + 1
    simp [List.count_append]

/-- C6 (witness): a lifetime in which the server returns run 5 again
after its first coordinator finished — the second claim is refused, the
second dispatch is a no-op, and the dispatch log still holds one entry —
together with concrete instances of the skip and consecutive-tick
clauses. -/
theorem c6_witness :
    (runTrace initSys [.tick [5], .propose 5 true, .dispatch 5, .remove 5,
        .tick [5], .propose 5 true, .dispatch 5]).dispatchLog.count 5 ≤ 1 ∧
    (tickStep (runTrace initSys [.tick [5]]) [5]).spawnLog.count 5 =
      (runTrace initSys [.tick [5]]).spawnLog.count 5 ∧
    (runTrace initSys [.tick [5], .tick [5]]).spawnLog.count 5 =
      initSys.spawnLog.count 5 + 1 :=
  ⟨c6_at_most_once_dispatch.1 _ 5,
   (c6_at_most_once_dispatch.2.1 (runTrace initSys [.tick [5]]) [5] 5
      (by decide)).1,
   c6_at_most_once_dispatch.2.2 initSys 5 (by decide)⟩
